import Mathlib

/-!
Verification of the documentation and catalog generation engine of
`easybuild/tools/docs.py` (EasyBuild framework slice).

The Python source is shallowly embedded: dictionaries become association
lists, Python `sorted` becomes `List.insertionSort` with the corresponding
total preorder, raised exceptions become `Except` or explicit outcome
values, and the loose version comparator from `easybuild.tools`
(`LooseVersion`, outside the provided source slice) is modelled from the
specification text.
-/

/-- Modelled from the spec: the `nub` utility of `easybuild.tools.utilities`
(outside the provided source slice) deduplicates a list while keeping the
first occurrence of each element, in order. The accumulator doubles as the
seen set, mirroring the seen-set comprehension described by the spec. -/
def nub {α : Type} [DecidableEq α] (l : List α) : List α :=
  l.foldl (fun acc x => if x ∈ acc then acc else acc ++ [x]) []

/-- Modelled from the spec: one component of a parsed loose version.
The spec design notes prescribe splitting a version string on dots and
dashes, comparing numeric segments numerically and non-numeric segments
lexicographically; a numeric segment is taken to order before a
non-numeric one (documented policy choice, as the spec allows). -/
inductive VComp : Type where
  | num : Nat → VComp
  | str : String → VComp
deriving DecidableEq

/-- Splitting of a character list at separator characters, with the
semantics of Python str.split on a single separator: the empty input
yields one empty segment, and adjacent separators yield empty segments. -/
def pySplit (sep : Char → Bool) : List Char → List (List Char)
  | [] => [[]]
  | c :: cs =>
    if sep c then [] :: pySplit sep cs
    else
      match pySplit sep cs with
      | [] => [[c]]
      | seg :: segs => (c :: seg) :: segs

/-- Decimal value of an all-digit character run. -/
def segToNat (cs : List Char) : Nat :=
  cs.foldl (fun n c => n * 10 + (c.toNat - 48)) 0

/-- Modelled from the spec: turn one segment of a version string into a
component, numeric when it is a nonempty all-digit run. -/
def vcompOfSeg (seg : List Char) : VComp :=
  if !seg.isEmpty && seg.all Char.isDigit then VComp.num (segToNat seg)
  else VComp.str ⟨seg⟩

/-- Modelled from the spec: parse a loose version string by splitting on
dots and dashes. -/
def looseVersionParse (s : String) : List VComp :=
  (pySplit (fun c => c == '.' || c == '-') s.data).map vcompOfSeg

/-- Strict comparison of single version components: numeric against
numeric compares the numbers, string against string is lexicographic, and
a numeric component orders before a string component. -/
def vcompLt : VComp → VComp → Bool
  | VComp.num a, VComp.num b => decide (a < b)
  | VComp.num _, VComp.str _ => true
  | VComp.str _, VComp.num _ => false
  | VComp.str a, VComp.str b => decide (a < b)

/-- Strict lexicographic comparison of parsed versions, mirroring Python
list comparison (a strict prefix orders before its extensions). -/
def vlistLt : List VComp → List VComp → Bool
  | [], [] => false
  | [], _ :: _ => true
  | _ :: _, [] => false
  | a :: as, b :: bs => if a = b then vlistLt as bs else vcompLt a b

/-- Sort key used by the software catalog renderers: the parsed loose
version, then the versionsuffix, then the original version string, exactly
the tuple `(LooseVersion(v), vs, v)` the Python code sorts by. -/
def VKey : Type := List VComp × String × String

/-- Ordering on sort keys, mirroring Python tuple comparison: compare the
parsed versions first (equality is component-wise), then the
versionsuffix, then the original version string. -/
def vkeyLe (x y : VKey) : Prop :=
  vlistLt x.1 y.1 = true ∨
    (x.1 = y.1 ∧ (x.2.1 < y.2.1 ∨ (x.2.1 = y.2.1 ∧ x.2.2 ≤ y.2.2)))

instance : DecidableRel vkeyLe := fun x y =>
  inferInstanceAs (Decidable (vlistLt x.1 y.1 = true ∨
    (x.1 = y.1 ∧ (x.2.1 < y.2.1 ∨ (x.2.1 = y.2.1 ∧ x.2.2 ≤ y.2.2)))))

/-- One record of the per-software list built by `list_software`: the
`info` dictionary with its toolchain label and the templated fields. -/
structure SoftInfo : Type where
  toolchain : String
  description : String
  homepage : String
  version : String
  versionsuffix : String

/-- Embedding of `pairs = nub((x[version], x[versionsuffix]) for x in
software[key])` from the detailed renderers of `list_software`. -/
def softPairs (entries : List SoftInfo) : List (String × String) :=
  nub (entries.map (fun x => (x.version, x.versionsuffix)))

/-- Embedding of `with_vsuff = any(vs for (_, vs) in pairs)`: a Python
string is truthy exactly when it is nonempty. -/
def withVsuff (pairs : List (String × String)) : Bool :=
  pairs.any (fun p => p.2 != "")

/-- Embedding of `sorted((LooseVersion(v), vs, v) for v, vs in pairs)`. -/
def sortedPairs (pairs : List (String × String)) : List VKey :=
  List.insertionSort vkeyLe (pairs.map (fun p => (looseVersionParse p.1, p.2, p.1)))

/-- Embedding of `tcs = [x[toolchain] for x in software[key] if
x[version] == ver and x[versionsuffix] == vsuff]`. -/
def tcsFor (entries : List SoftInfo) (ver vsuff : String) : List String :=
  (entries.filter (fun x => x.version == ver && x.versionsuffix == vsuff)).map
    (fun x => x.toolchain)

/-- Embedding of `sorted(nub(tcs))`, the deduplicated sorted toolchain
labels shown for one (version, versionsuffix) pair. -/
def toolchainLabels (entries : List SoftInfo) (ver vsuff : String) : List String :=
  List.insertionSort (fun a b : String => a ≤ b) (nub (tcsFor entries ver vsuff))

/-- Embedding of the MarkDown toolchain cell: the sorted deduplicated
labels, each wrapped in double backticks, joined with comma-space. -/
def toolchainCellMd (entries : List SoftInfo) (ver vsuff : String) : String :=
  String.intercalate ", "
    ((toolchainLabels entries ver vsuff).map (fun tc => "``" ++ tc ++ "``"))

/-- Embedding of the table titles of `list_software_md` for one software
group: `[version, toolchain]`, with `versionsuffix` inserted at position 1
when any nonempty versionsuffix is in play. -/
def mdTableTitles (entries : List SoftInfo) : List String :=
  if withVsuff (softPairs entries) then ["version", "versionsuffix", "toolchain"]
  else ["version", "toolchain"]

/-- Embedding of the column-major table body of `list_software_md` for one
software group. The Python loop pushes one row per sorted pair onto each
column; building each column by mapping over the sorted pairs yields the
same columns. -/
def mdTableValues (entries : List SoftInfo) : List (List String) :=
  let pairs := softPairs entries
  let sp := sortedPairs pairs
  let verCol := sp.map (fun t => "``" ++ t.2.2 ++ "``")
  let vsCol := sp.map (fun t => if t.2.1 != "" then "``" ++ t.2.1 ++ "``" else "")
  let tcCol := sp.map (fun t => toolchainCellMd entries t.2.2 t.2.1)
  if withVsuff pairs then [verCol, vsCol, tcCol] else [verCol, tcCol]

/-- Embedding of the per-group detail lines of `list_software_txt`: one
line per sorted (version, versionsuffix) pair, the versionsuffix shown
only when nonempty, followed by the deduplicated sorted toolchains. -/
def txtGroupLines (key : String) (entries : List SoftInfo) : List String :=
  (sortedPairs (softPairs entries)).map (fun t =>
    let line := "  * " ++ key ++ " v" ++ t.2.2
    let line := if t.2.1 != "" then
      line ++ " (versionsuffix: \x27" ++ t.2.1 ++ "\x27)" else line
    line ++ ": " ++ String.intercalate ", " (toolchainLabels entries t.2.2 t.2.1))

/-- Claim-level ordering on sort keys: ascending loose-version order with
ties broken by versionsuffix. -/
def specLooseLe (x y : VKey) : Prop :=
  vlistLt x.1 y.1 = true ∨ (x.1 = y.1 ∧ x.2.1 ≤ y.2.1)

/-- Concrete software group from the spec example: two entries named the
same, versions 10.0 and 2.0, no versionsuffixes. -/
def demoEntries : List SoftInfo :=
  [⟨"GCC/12.2.0", "d", "h", "10.0", ""⟩, ⟨"GCC/12.2.0", "d", "h", "2.0", ""⟩]

/-- Binding found in the module globals for one name: either a real
renderer (or other plain function) or one of the deliberate JSON
"not supported" stubs together with the message it raises. -/
inductive RendererKind : Type where
  | real : RendererKind
  | stub : String → RendererKind
deriving DecidableEq

/-- Outcome of the dispatch entry point `generate_doc`: it either calls
the bound function, fails the globals lookup (Python KeyError carrying the
composed identifier), or reaches a stub which raises NotImplementedError
with its message. -/
inductive DispatchOutcome : Type where
  | calls : String → DispatchOutcome
  | keyError : String → DispatchOutcome
  | stubError : String → DispatchOutcome
deriving DecidableEq

/-- The module-level function bindings of `easybuild/tools/docs.py`, in
definition order, with the exact NotImplementedError messages of the JSON
stubs. -/
def rendererTable : List (String × RendererKind) :=
  [("generate_doc", RendererKind.real),
   ("md_title_and_table", RendererKind.real),
   ("rst_title_and_table", RendererKind.real),
   ("avail_cfgfile_constants", RendererKind.real),
   ("avail_cfgfile_constants_json",
     RendererKind.stub "JSON output format not supported for avail_cfgfile_constants_json"),
   ("avail_cfgfile_constants_txt", RendererKind.real),
   ("avail_cfgfile_constants_rst", RendererKind.real),
   ("avail_cfgfile_constants_md", RendererKind.real),
   ("avail_easyconfig_constants", RendererKind.real),
   ("avail_easyconfig_constants_json",
     RendererKind.stub "JSON output format not supported for avail_easyconfig_constants_json"),
   ("avail_easyconfig_constants_txt", RendererKind.real),
   ("avail_easyconfig_constants_rst", RendererKind.real),
   ("avail_easyconfig_constants_md", RendererKind.real),
   ("avail_easyconfig_licenses", RendererKind.real),
   ("avail_easyconfig_licenses_json",
     RendererKind.stub "JSON output format not supported for avail_easyconfig_licenses_json"),
   ("avail_easyconfig_licenses_txt", RendererKind.real),
   ("avail_easyconfig_licenses_rst", RendererKind.real),
   ("avail_easyconfig_licenses_md", RendererKind.real),
   ("avail_easyconfig_params_md", RendererKind.real),
   ("avail_easyconfig_params_rst", RendererKind.real),
   ("avail_easyconfig_params_json",
     RendererKind.stub "JSON output format not supported for avail_easyconfig_params_json"),
   ("avail_easyconfig_params_txt", RendererKind.real),
   ("avail_easyconfig_params", RendererKind.real),
   ("avail_easyconfig_templates", RendererKind.real),
   ("avail_easyconfig_templates_json",
     RendererKind.stub "JSON output format not supported for avail_easyconfig_templates"),
   ("avail_easyconfig_templates_txt", RendererKind.real),
   ("avail_easyconfig_templates_rst", RendererKind.real),
   ("avail_easyconfig_templates_md", RendererKind.real),
   ("avail_classes_tree", RendererKind.real),
   ("list_easyblocks", RendererKind.real),
   ("gen_list_easyblocks", RendererKind.real),
   ("list_software", RendererKind.real),
   ("list_software_md", RendererKind.real),
   ("list_software_rst", RendererKind.real),
   ("list_software_txt", RendererKind.real),
   ("list_software_json", RendererKind.real),
   ("list_toolchains", RendererKind.real),
   ("list_toolchains_md", RendererKind.real),
   ("list_toolchains_rst", RendererKind.real),
   ("list_toolchains_txt", RendererKind.real),
   ("list_toolchains_json",
     RendererKind.stub "JSON output not implemented yet for --list-toolchains"),
   ("avail_toolchain_opts", RendererKind.real),
   ("avail_toolchain_opts_md", RendererKind.real),
   ("avail_toolchain_opts_rst", RendererKind.real),
   ("avail_toolchain_opts_json",
     RendererKind.stub "JSON output not implemented yet for --avail-toolchain-opts"),
   ("avail_toolchain_opts_txt", RendererKind.real),
   ("get_easyblock_classes", RendererKind.real),
   ("gen_easyblocks_overview_json",
     RendererKind.stub "JSON output not implemented yet for gen_easyblocks_overview"),
   ("gen_easyblocks_overview_md", RendererKind.real),
   ("gen_easyblocks_overview_rst", RendererKind.real),
   ("gen_easyblock_doc_section_md", RendererKind.real),
   ("gen_easyblock_doc_section_rst", RendererKind.real)]

/-- Embedding of `generate_doc(name, params)`: look the name up in the
module globals and call it; a missing binding is a Python KeyError on the
name, and a reached stub raises NotImplementedError with its message. -/
def generate_doc (fname : String) : DispatchOutcome :=
  match List.lookup fname rendererTable with
  | none => DispatchOutcome.keyError fname
  | some RendererKind.real => DispatchOutcome.calls fname
  | some (RendererKind.stub msg) => DispatchOutcome.stubError msg

/-- Embedding of a report entry point invoking the dispatcher: every
caller composes the renderer identifier as reportName, underscore,
format. -/
def dispatchReport (report fmt : String) : DispatchOutcome :=
  generate_doc (report ++ "_" ++ fmt)

/-- The logical report names that dispatch through `generate_doc`. -/
def reportNames : List String :=
  ["avail_cfgfile_constants", "avail_easyconfig_constants",
   "avail_easyconfig_licenses", "avail_easyconfig_params",
   "avail_easyconfig_templates", "list_software", "list_toolchains",
   "avail_toolchain_opts", "gen_easyblocks_overview"]

/-- The closed format selector set of the spec. -/
def formatNames : List String := ["txt", "md", "rst", "json"]

/-- Containment of a character list at any position of another. -/
def charsContain (pat : List Char) : List Char → Bool
  | [] => pat.isEmpty
  | c :: cs => pat.isPrefixOf (c :: cs) || charsContain pat cs

/-- Substring containment on the underlying character lists. -/
def strContains (s pat : String) : Bool :=
  charsContain pat.data s.data

/-- Replace underscores by dashes, the CLI-option spelling of a report
name used in some stub messages. -/
def dashize (s : String) : String :=
  ⟨s.data.map (fun c => if c == '_' then '-' else c)⟩

/-- Uppercase ASCII letters of a string. -/
def asciiUpper (s : String) : String :=
  ⟨s.data.map (fun c =>
    if 97 ≤ c.toNat && c.toNat ≤ 122 then Char.ofNat (c.toNat - 32) else c)⟩

/-- An outcome identifies the report and format when it is an error whose
payload names both: a KeyError carries exactly the composed identifier,
and a stub message spells the report (plain or in CLI-option dashes) and
the format (plain or uppercased). A successful call never counts. -/
def identifiesOutcome : DispatchOutcome → String → String → Bool
  | DispatchOutcome.keyError k, report, fmt => k == report ++ "_" ++ fmt
  | DispatchOutcome.stubError msg, report, fmt =>
      (strContains msg report || strContains msg (dashize report)) &&
        (strContains msg fmt || strContains msg (asciiUpper fmt))
  | DispatchOutcome.calls _, _, _ => false

/-- Whether the dispatch outcome invoked a bound renderer. -/
def isCalls : DispatchOutcome → Bool
  | DispatchOutcome.calls _ => true
  | _ => false

/-- Whether a globals lookup result is one of the JSON stubs. -/
def isStub : Option RendererKind → Bool
  | some (RendererKind.stub _) => true
  | _ => false

/-- Category tag of an easyconfig parameter: the (rank, title) tuple used
by the default schema, sorted by rank and displayed by title. -/
structure ParamCategory : Type where
  rank : Nat
  title : String
deriving DecidableEq

/-- Value stored for one easyconfig parameter in the schema: default
value (treated as an opaque payload), description and category. -/
structure ParamInfo : Type where
  dflt : String
  descr : String
  cat : ParamCategory
deriving DecidableEq

/-- A Python dictionary of easyconfig parameters, as an association list
in insertion order. -/
abbrev Schema : Type := List (String × ParamInfo)

/-- Embedding of Python dict update: existing keys keep their position
and receive the new value, new keys are appended in order. -/
def dictUpdate (base extra : Schema) : Schema :=
  base.map (fun kv =>
    match List.lookup kv.1 extra with
    | some v => (kv.1, v)
    | none => kv) ++
  extra.filter (fun kv => (List.lookup kv.1 base).isNone)

/-- Lexicographic comparison of character lists by code point, the order
Python uses on strings. -/
def charsLe : List Char → List Char → Bool
  | [], _ => true
  | _ :: _, [] => false
  | a :: as, b :: bs => if a = b then charsLe as bs else decide (a.toNat < b.toNat)

/-- Ordering of schema items by parameter name, the order produced by
Python sorted(params.items()). -/
def byKeyLe (a b : String × ParamInfo) : Prop :=
  charsLe a.1.data b.1.data = true

instance : DecidableRel byKeyLe := fun a b =>
  inferInstanceAs (Decidable (charsLe a.1.data b.1.data = true))

/-- Embedding of sorted(params.items()). -/
def sortedItems (params : Schema) : Schema :=
  List.insertionSort byKeyLe params

/-- Modelled from the spec: the HIDDEN marker constant of
`easybuild.framework.easyconfig.default` (outside the provided source
slice), an uppercase tag compared against the uppercased category title. -/
def HIDDEN : String := "HIDDEN"

/-- Embedding of the hidden-category test
`category[1].upper() in [HIDDEN]`. -/
def isHiddenCat (c : ParamCategory) : Bool :=
  asciiUpper c.title == HIDDEN

/-- Embedding of the body of the category loop of
`avail_easyconfig_params`: the parameters of one category, in sorted
name order, easyblock-specific ones renamed with a star suffix, each
carried as (name, (description, default)). -/
def groupForCategory (params : Schema) (extraKeys : List String)
    (c : ParamCategory) : List (String × (String × String)) :=
  ((sortedItems params).filter (fun kv => kv.2.cat == c)).map
    (fun kv => (if kv.1 ∈ extraKeys then kv.1 ++ "*" else kv.1,
      (kv.2.descr, kv.2.dflt)))

/-- One step of the category loop: skip hidden categories, and keep a
category only when its group of parameters is nonempty (the code deletes
the group it just built when empty). -/
def groupedStep (params : Schema) (extraKeys : List String)
    (acc : List (String × List (String × (String × String))))
    (c : ParamCategory) : List (String × List (String × (String × String))) :=
  if isHiddenCat c then acc
  else if (groupForCategory params extraKeys c).isEmpty then acc
  else acc ++ [(c.title, groupForCategory params extraKeys c)]

/-- Embedding of the grouping loop of `avail_easyconfig_params` over the
sorted category list (taken as input, coming from sorted_categories()). -/
def grouped_params (cats : List ParamCategory) (params : Schema)
    (extraKeys : List String) : List (String × List (String × (String × String))) :=
  cats.foldl (groupedStep params extraKeys) []

/-- An easyblock class as seen by `avail_easyconfig_params`: its name and
its declared extra easyconfig parameters. -/
structure EasyblockClass : Type where
  ebName : String
  extra_options : Schema

/-- Embedding of `avail_easyconfig_params` up to the final dispatch: the
resolved easyblock (None when the type id resolves to no known
easyblock), the merged parameter schema, the composed title and the
grouped parameters. -/
def avail_easyconfig_params_core (cats : List ParamCategory)
    (default_config : Schema) (app : Option EasyblockClass) :
    String × List (String × List (String × (String × String))) :=
  let extra_params := match app with
    | some a => a.extra_options
    | none => []
  let params := dictUpdate default_config extra_params
  let title := if extra_params.isEmpty then "Available easyconfig parameters"
    else "Available easyconfig parameters (* indicates specific to the " ++
      (match app with | some a => a.ebName | none => "") ++ " easyblock)"
  (title, grouped_params cats params (extra_params.map (fun kv => kv.1)))

/-- Concrete category list for the parameter catalog witnesses. -/
def demoCats : List ParamCategory := [⟨0, "mandatory"⟩, ⟨250, "custom"⟩]

/-- Concrete base schema for the parameter catalog witnesses. -/
def demoConfig : Schema :=
  [("name", ⟨"", "Name of software", ⟨0, "mandatory"⟩⟩),
   ("version", ⟨"", "Version of software", ⟨0, "mandatory"⟩⟩)]

/-- Concrete easyblock with one extra parameter for the witnesses. -/
def demoApp : EasyblockClass :=
  ⟨"ConfigureMake",
   [("configopts", ⟨"", "Extra options for configure", ⟨250, "custom"⟩⟩)]⟩

/-- A heap of schema objects: Python object identity is an index into
this list. The base parameter schema DEFAULT_CONFIG lives at one address
and must survive every catalog request unchanged. -/
structure SchemaHeap : Type where
  objs : List Schema

/-- Value of the object at an address (empty schema when dangling). -/
def hread (h : SchemaHeap) (a : Nat) : Schema :=
  h.objs.getD a []

/-- In-place mutation of the object at an address. -/
def hwrite (h : SchemaHeap) (a : Nat) (v : Schema) : SchemaHeap :=
  ⟨h.objs.set a v⟩

/-- Allocation of a fresh object holding the given value. -/
def halloc (h : SchemaHeap) (v : Schema) : SchemaHeap × Nat :=
  (⟨h.objs ++ [v]⟩, h.objs.length)

/-- Embedding of the object mutations of `avail_easyconfig_params`:
`params = copy.deepcopy(DEFAULT_CONFIG)` allocates a fresh object holding
an equal value, and `params.update(extra_params)` mutates only that fresh
object. Returns the heap after the call and the address of the merged
copy. -/
def avail_params_st (h : SchemaHeap) (baseAddr : Nat) (extra : Schema) :
    SchemaHeap × Nat :=
  let h1 := (halloc h (hread h baseAddr)).1
  let p := (halloc h (hread h baseAddr)).2
  (hwrite h1 p (dictUpdate (hread h1 p) extra), p)

/-- One class member of a scanned module, as seen by
`get_easyblock_classes`: the module path of its definition and whether
EasyBlock occurs in its method resolution order. -/
structure PyClassInfo : Type where
  definedIn : String
  isEasyblock : Bool
deriving DecidableEq

/-- One module scanned by `get_easyblock_classes`: its name and its class
members (as returned by inspect.getmembers). -/
structure PyModule : Type where
  modName : String
  members : List (String × PyClassInfo)

/-- A member counts as a discovered easyblock of the package when it is
defined under the package and derives from EasyBlock. -/
def memberCounts (pkg : String) (m : String × PyClassInfo) : Bool :=
  pkg.data.isPrefixOf m.2.definedIn.data && m.2.isEasyblock

/-- Whether a scanned module contributes at least one easyblock. -/
def moduleContributes (pkg : String) (mod : PyModule) : Bool :=
  mod.members.any (memberCounts pkg)

/-- Embedding of the scan loop of `get_easyblock_classes`: walk the
imported modules in order collecting every member that is an easyblock of
the package; a module contributing none raises RuntimeError, embedded as
an error carrying the unformatted message and the module name exactly as
the code passes them (the Python set of classes is kept as a list). -/
def get_easyblock_classes (pkg : String) :
    List PyModule → Except (String × String) (List (String × PyClassInfo))
  | [] => Except.ok []
  | mod :: mods =>
    if (mod.members.filter (memberCounts pkg)).isEmpty then
      Except.error ("No easyblocks found in module: %s", mod.modName)
    else
      match get_easyblock_classes pkg mods with
      | Except.ok rest => Except.ok (mod.members.filter (memberCounts pkg) ++ rest)
      | Except.error e => Except.error e

/-- A module that was asked to contribute easyblocks yet has no class
members at all. -/
def demoBadModule : PyModule := ⟨"easybuild.easyblocks.generic.helperlib", []⟩

/-- A Python function object as the step-documentation loop sees it: only
its docstring matters (None when absent). -/
structure PyFunc : Type where
  docstr : Option String
deriving DecidableEq

/-- Docstring access on the loop variable f, which is Python None before
the first hook name found in the class dict: None has no docstring. -/
def stateDoc : Option PyFunc → Option String
  | none => none
  | some g => g.docstr

/-- Python truthiness of a docstring: present and nonempty. -/
def truthyDoc : Option String → Bool
  | none => false
  | some s => s != ""

/-- Python str.strip(): drop leading and trailing whitespace. -/
def pyStrip (s : String) : String :=
  ⟨(((s.data.dropWhile Char.isWhitespace).reverse).dropWhile
      Char.isWhitespace).reverse⟩

/-- Embedding of the customised-step loop of
`gen_easyblock_doc_section_md` and `_rst`: the loop variable f is updated
only when the class dict defines the current hook name, and a bullet is
emitted whenever the docstring of the CURRENT value of f is truthy (the
Markdown variant also appends a blank line after each bullet). -/
def stepBulletsGo (classDict : List (String × PyFunc)) (addBlank : Bool) :
    Option PyFunc → List String → List String
  | _, [] => []
  | f, func :: rest =>
    (if truthyDoc (stateDoc (match List.lookup func classDict with
        | some g => some g
        | none => f)) then
      ["* ``" ++ func ++ "`` - " ++
          pyStrip ((stateDoc (match List.lookup func classDict with
            | some g => some g
            | none => f)).getD "")] ++
        (if addBlank then [""] else [])
    else []) ++
      stepBulletsGo classDict addBlank
        (match List.lookup func classDict with
          | some g => some g
          | none => f) rest

/-- Customised-step bullets of the MarkDown easyblock section. -/
def stepBulletsMd (classDict : List (String × PyFunc))
    (doc_functions : List String) : List String :=
  stepBulletsGo classDict true none doc_functions

/-- Customised-step bullets of the reStructuredText easyblock section. -/
def stepBulletsRst (classDict : List (String × PyFunc))
    (doc_functions : List String) : List String :=
  stepBulletsGo classDict false none doc_functions

/-- Class dict of an easyblock defining only configure_step, with a
docstring. -/
def demoClassDict : List (String × PyFunc) :=
  [("configure_step", ⟨some "Configure the build."⟩)]

theorem nub_fold_mem {α : Type} [DecidableEq α] (l : List α) :
    ∀ (acc : List α) (a : α),
      (a ∈ l.foldl (fun acc x => if x ∈ acc then acc else acc ++ [x]) acc) ↔
        (a ∈ acc ∨ a ∈ l) := by
  induction l with
  | nil => simp
  | cons x l ih =>
    intro acc a
    simp only [List.foldl_cons]
    rw [ih]
    by_cases hx : x ∈ acc <;> simp [hx, List.mem_cons] <;> aesop

theorem nub_fold_nodup {α : Type} [DecidableEq α] (l : List α) :
    ∀ acc : List α, acc.Nodup →
      (l.foldl (fun acc x => if x ∈ acc then acc else acc ++ [x]) acc).Nodup := by
  induction l with
  | nil => intro acc hacc; simp only [List.foldl_nil]; exact hacc
  | cons x l ih =>
    intro acc hacc
    simp only [List.foldl_cons]
    by_cases hx : x ∈ acc
    · simpa [hx] using ih acc hacc
    · refine ih _ ?_
      simp only [hx, if_false]
      simp [List.nodup_append, hacc, hx]

theorem mem_nub {α : Type} [DecidableEq α] {l : List α} {a : α} :
    a ∈ nub l ↔ a ∈ l := by
  unfold nub
  rw [nub_fold_mem]
  simp

theorem nub_nodup {α : Type} [DecidableEq α] (l : List α) : (nub l).Nodup := by
  unfold nub
  exact nub_fold_nodup l [] List.nodup_nil

theorem vcompLt_trans {a b c : VComp} (hab : vcompLt a b = true)
    (hbc : vcompLt b c = true) : vcompLt a c = true := by
  cases a <;> cases b <;> cases c <;> simp [vcompLt] at *
  · omega
  · exact lt_trans hab hbc

theorem vcompLt_asymm {a b : VComp} (hab : vcompLt a b = true)
    (hba : vcompLt b a = true) : False := by
  cases a <;> cases b <;> simp [vcompLt] at *
  · omega
  · exact absurd hba (not_lt_of_gt hab)

theorem vcompLt_connex {a b : VComp} (h : a ≠ b) :
    vcompLt a b = true ∨ vcompLt b a = true := by
  cases a with
  | num x =>
    cases b with
    | num y =>
      have hxy : x ≠ y := fun hc => h (by rw [hc])
      simp only [vcompLt, decide_eq_true_eq]
      omega
    | str y => simp [vcompLt]
  | str x =>
    cases b with
    | num y => simp [vcompLt]
    | str y =>
      have hxy : x ≠ y := fun hc => h (by rw [hc])
      simp only [vcompLt, decide_eq_true_eq]
      exact lt_or_gt_of_ne hxy

theorem vlistLt_irrefl : ∀ as : List VComp, vlistLt as as = false
  | [] => rfl
  | _ :: as => by simp [vlistLt, vlistLt_irrefl as]

theorem vlistLt_trans : ∀ as bs cs : List VComp, vlistLt as bs = true →
    vlistLt bs cs = true → vlistLt as cs = true := by
  intro as
  induction as with
  | nil =>
    intro bs cs hab hbc
    cases bs with
    | nil => simp [vlistLt] at hab
    | cons b bs =>
      cases cs with
      | nil => simp [vlistLt] at hbc
      | cons c cs => simp [vlistLt]
  | cons a as ih =>
    intro bs cs hab hbc
    cases bs with
    | nil => simp [vlistLt] at hab
    | cons b bs =>
      cases cs with
      | nil => simp [vlistLt] at hbc
      | cons c cs =>
        simp only [vlistLt] at hab hbc ⊢
        by_cases h1 : a = b
        · subst h1
          simp only [if_pos rfl] at hab
          by_cases h2 : a = c
          · subst h2
            simp only [if_pos rfl] at hbc ⊢
            exact ih bs cs hab hbc
          · simpa [h2] using hbc
        · simp only [if_neg h1] at hab
          by_cases h2 : b = c
          · subst h2
            simpa [h1] using hab
          · simp only [if_neg h2] at hbc
            by_cases h3 : a = c
            · subst h3
              exact (vcompLt_asymm hab hbc).elim
            · simpa [h3] using vcompLt_trans hab hbc

theorem vlistLt_connex : ∀ as bs : List VComp, as ≠ bs →
    vlistLt as bs = true ∨ vlistLt bs as = true := by
  intro as
  induction as with
  | nil =>
    intro bs h
    cases bs with
    | nil => exact absurd rfl h
    | cons b bs => simp [vlistLt]
  | cons a as ih =>
    intro bs h
    cases bs with
    | nil => simp [vlistLt]
    | cons b bs =>
      by_cases h1 : a = b
      · subst h1
        have : as ≠ bs := by intro hc; exact h (by rw [hc])
        simpa [vlistLt] using ih bs this
      · have h2 : b ≠ a := fun hc => h1 hc.symm
        simpa [vlistLt, h1, h2] using vcompLt_connex h1

theorem vkeyLe_isTotal : IsTotal VKey vkeyLe := by
  constructor
  intro x y
  by_cases h1 : x.1 = y.1
  · rcases lt_trichotomy x.2.1 y.2.1 with h2 | h2 | h2
    · exact Or.inl (Or.inr ⟨h1, Or.inl h2⟩)
    · rcases le_total x.2.2 y.2.2 with h3 | h3
      · exact Or.inl (Or.inr ⟨h1, Or.inr ⟨h2, h3⟩⟩)
      · exact Or.inr (Or.inr ⟨h1.symm, Or.inr ⟨h2.symm, h3⟩⟩)
    · exact Or.inr (Or.inr ⟨h1.symm, Or.inl h2⟩)
  · rcases vlistLt_connex x.1 y.1 h1 with h | h
    · exact Or.inl (Or.inl h)
    · exact Or.inr (Or.inl h)

theorem vkeyLe_isTrans : IsTrans VKey vkeyLe := by
  constructor
  intro x y z hxy hyz
  rcases hxy with h1 | ⟨e1, h1⟩
  · rcases hyz with h2 | ⟨e2, h2⟩
    · exact Or.inl (vlistLt_trans _ _ _ h1 h2)
    · exact Or.inl (e2 ▸ h1)
  · rcases hyz with h2 | ⟨e2, h2⟩
    · exact Or.inl (e1 ▸ h2)
    · refine Or.inr ⟨e1.trans e2, ?_⟩
      rcases h1 with h1 | ⟨f1, h1⟩
      · rcases h2 with h2 | ⟨f2, h2⟩
        · exact Or.inl (lt_trans h1 h2)
        · exact Or.inl (f2 ▸ h1)
      · rcases h2 with h2 | ⟨f2, h2⟩
        · exact Or.inl (f1 ▸ h2)
        · exact Or.inr ⟨f1.trans f2, le_trans h1 h2⟩

theorem vkeyLe_specLooseLe {x y : VKey} (h : vkeyLe x y) : specLooseLe x y := by
  rcases h with h | ⟨e, h⟩
  · exact Or.inl h
  · refine Or.inr ⟨e, ?_⟩
    rcases h with h | ⟨f, _⟩
    · exact le_of_lt h
    · exact le_of_eq f

theorem withVsuff_iff (pairs : List (String × String)) :
    withVsuff pairs = true ↔ ∃ p ∈ pairs, p.2 ≠ "" := by
  unfold withVsuff
  rw [List.any_eq_true]
  simp only [bne_iff_ne]

/-- C2: in the detailed software catalog the distinct
(version, versionsuffix) pairs of a group are rendered exactly once each,
in ascending loose-version order with ties broken by versionsuffix; the
versionsuffix column is present if and only if some pair in the group has
a nonempty suffix (absent when all are empty); the plain-text renderer
emits exactly one line per distinct pair from the same sorted sequence;
and on the spec example version 2.0 is listed before 10.0 with no
versionsuffix column. -/
theorem spec_C2 (entries : List SoftInfo) :
    ((sortedPairs (softPairs entries)).map (fun t => (t.2.2, t.2.1))).Perm
        (softPairs entries)
    ∧ (softPairs entries).Nodup
    ∧ (sortedPairs (softPairs entries)).Sorted specLooseLe
    ∧ ((mdTableTitles entries).contains "versionsuffix" = true ↔
        ∃ p ∈ softPairs entries, p.2 ≠ "")
    ∧ (mdTableTitles entries = ["version", "toolchain"] ↔
        ∀ p ∈ softPairs entries, p.2 = "")
    ∧ (mdTableValues entries).head? =
        some ((sortedPairs (softPairs entries)).map (fun t => "``" ++ t.2.2 ++ "``"))
    ∧ (∀ key : String,
        (txtGroupLines key entries).length = (softPairs entries).length)
    ∧ mdTableTitles demoEntries = ["version", "toolchain"]
    ∧ mdTableValues demoEntries =
        [["``2.0``", "``10.0``"], ["``GCC/12.2.0``", "``GCC/12.2.0``"]] := by
  refine ⟨?_, nub_nodup _, ?_, ?_, ?_, ?_, ?_, by rfl, by rfl⟩
  · have h1 := List.perm_insertionSort vkeyLe
      ((softPairs entries).map (fun p => (looseVersionParse p.1, p.2, p.1)))
    have h2 := h1.map (fun t : VKey => (t.2.2, t.2.1))
    unfold sortedPairs
    refine h2.trans ?_
    rw [List.map_map]
    have : ((fun t : VKey => (t.2.2, t.2.1)) ∘
        (fun p : String × String => (looseVersionParse p.1, p.2, p.1))) = id := by
      funext p
      rfl
    rw [this, List.map_id]
  · exact (@List.sorted_insertionSort VKey vkeyLe _ vkeyLe_isTotal vkeyLe_isTrans
      _).imp (fun h => vkeyLe_specLooseLe h)
  · by_cases h : withVsuff (softPairs entries)
    · rw [mdTableTitles, if_pos h]
      simpa using (withVsuff_iff _).mp h
    · rw [mdTableTitles, if_neg h]
      have : ¬ ∃ p ∈ softPairs entries, p.2 ≠ "" := fun he => h ((withVsuff_iff _).mpr he)
      simpa using this
  · by_cases h : withVsuff (softPairs entries)
    · rw [mdTableTitles, if_pos h]
      have he := (withVsuff_iff _).mp h
      constructor
      · intro hc
        exact absurd hc (by decide)
      · intro hall
        rcases he with ⟨p, hp, hne⟩
        exact absurd (hall p hp) hne
    · rw [mdTableTitles, if_neg h]
      have : ∀ p ∈ softPairs entries, p.2 = "" := by
        intro p hp
        by_contra hne
        exact h ((withVsuff_iff _).mpr ⟨p, hp, hne⟩)
      simpa using this
  · unfold mdTableValues
    by_cases h : withVsuff (softPairs entries) <;> simp [h]
  · intro key
    unfold txtGroupLines sortedPairs
    rw [List.length_map, List.length_insertionSort, List.length_map]

/-- C4: for every software group and every (version, versionsuffix) pair,
the rendered toolchain cell is the deduplicated, sorted list of toolchain
labels of exactly the entries of the group carrying that version and
versionsuffix, however many entries contributed duplicate labels. -/
theorem spec_C4 (entries : List SoftInfo) (ver vsuff : String) :
    (toolchainLabels entries ver vsuff).Nodup
    ∧ (toolchainLabels entries ver vsuff).Sorted (fun a b : String => a ≤ b)
    ∧ (∀ tc : String, tc ∈ toolchainLabels entries ver vsuff ↔
        ∃ x ∈ entries, x.version = ver ∧ x.versionsuffix = vsuff ∧ x.toolchain = tc)
    ∧ toolchainCellMd entries ver vsuff =
        String.intercalate ", "
          ((toolchainLabels entries ver vsuff).map (fun tc => "``" ++ tc ++ "``")) := by
  refine ⟨?_, ?_, ?_, rfl⟩
  · exact (List.perm_insertionSort _ _).nodup_iff.mpr (nub_nodup _)
  · exact List.sorted_insertionSort _ _
  · intro tc
    unfold toolchainLabels tcsFor
    rw [List.mem_insertionSort, mem_nub]
    simp only [List.mem_map, List.mem_filter, Bool.and_eq_true, beq_iff_eq]
    constructor
    · rintro ⟨x, ⟨hx, hv, hs⟩, ht⟩
      exact ⟨x, hx, hv, hs, ht⟩
    · rintro ⟨x, hx, hv, hs, ht⟩
      exact ⟨x, ⟨hx, hv, hs⟩, ht⟩

/-- C1: for every report and requested format from the closed format set
whose composed identifier has no binding or is bound to a JSON stub, the
dispatch entry point produces an error identifying the report and the
format, and never invokes a renderer (so no partial text is returned). -/
theorem spec_C1 (report fmt : String)
    (hr : report ∈ reportNames) (hf : fmt ∈ formatNames)
    (h : List.lookup (report ++ "_" ++ fmt) rendererTable = none ∨
      isStub (List.lookup (report ++ "_" ++ fmt) rendererTable) = true) :
    identifiesOutcome (dispatchReport report fmt) report fmt = true ∧
      isCalls (dispatchReport report fmt) = false := by
  fin_cases hr <;> fin_cases hf <;>
    first
      | exact ⟨by decide, by decide⟩
      | (rcases h with h | h <;> exact absurd h (by decide))

/-- Witness for C1 at the easyconfig parameter report with the json
format, whose renderer is a deliberate stub. -/
theorem spec_C1_witness :
    ("avail_easyconfig_params" ∈ reportNames) ∧ ("json" ∈ formatNames) ∧
      isStub (List.lookup ("avail_easyconfig_params" ++ "_" ++ "json") rendererTable) = true ∧
      (identifiesOutcome (dispatchReport "avail_easyconfig_params" "json")
          "avail_easyconfig_params" "json" = true ∧
        isCalls (dispatchReport "avail_easyconfig_params" "json") = false) :=
  ⟨by decide, by decide, by decide,
    spec_C1 "avail_easyconfig_params" "json" (by decide) (by decide) (Or.inr (by decide))⟩

theorem grouped_fold_mem (params : Schema) (extraKeys : List String) :
    ∀ (cats : List ParamCategory)
      (acc : List (String × List (String × (String × String))))
      (g : String × List (String × (String × String))),
      g ∈ cats.foldl (groupedStep params extraKeys) acc →
      g ∈ acc ∨ ∃ c ∈ cats, isHiddenCat c = false ∧
        g = (c.title, groupForCategory params extraKeys c) := by
  intro cats
  induction cats with
  | nil => intro acc g h; exact Or.inl (by simpa using h)
  | cons c cats ih =>
    intro acc g h
    rw [List.foldl_cons] at h
    rcases ih _ g h with h1 | ⟨c2, hc2, hhid, hg⟩
    · unfold groupedStep at h1
      split_ifs at h1 with hh he
      · exact Or.inl h1
      · exact Or.inl h1
      · rcases List.mem_append.mp h1 with h2 | h2
        · exact Or.inl h2
        · exact Or.inr ⟨c, List.mem_cons_self c cats, by simpa using hh, by simpa using h2⟩
    · exact Or.inr ⟨c2, List.mem_cons_of_mem c hc2, hhid, hg⟩

theorem grouped_fold_nonempty (params : Schema) (extraKeys : List String) :
    ∀ (cats : List ParamCategory)
      (acc : List (String × List (String × (String × String)))),
      (∀ g ∈ acc, g.2 ≠ []) →
      ∀ g ∈ cats.foldl (groupedStep params extraKeys) acc, g.2 ≠ [] := by
  intro cats
  induction cats with
  | nil => intro acc hacc g hg; exact hacc g (by simpa using hg)
  | cons c cats ih =>
    intro acc hacc g hg
    rw [List.foldl_cons] at hg
    refine ih _ ?_ g hg
    intro g2 hg2
    unfold groupedStep at hg2
    split_ifs at hg2 with hh he
    · exact hacc g2 hg2
    · exact hacc g2 hg2
    · rcases List.mem_append.mp hg2 with h2 | h2
      · exact hacc g2 h2
      · have hg2e : g2 = (c.title, groupForCategory params extraKeys c) := by simpa using h2
        rw [hg2e]
        intro hc
        have hnil : groupForCategory params extraKeys c = [] := hc
        exact he (by rw [hnil]; rfl)

/-- C10: no empty category group survives: every group of the parameter
catalog holds at least one parameter, for every input schema, easyblock
and category list. -/
theorem spec_C10 (cats : List ParamCategory) (default_config : Schema)
    (app : Option EasyblockClass) :
    ∀ g ∈ (avail_easyconfig_params_core cats default_config app).2, g.2 ≠ [] := by
  intro g hg
  simp only [avail_easyconfig_params_core] at hg
  exact grouped_fold_nonempty _ _ cats [] (by simp) g hg

theorem mem_groupForCategory (params : Schema) (extraKeys : List String)
    (c : ParamCategory) (e : String × (String × String))
    (he : e ∈ groupForCategory params extraKeys c) :
    ∃ kv ∈ params, kv.2.cat = c ∧ e.2 = (kv.2.descr, kv.2.dflt) ∧
      ((kv.1 ∈ extraKeys ∧ e.1 = kv.1 ++ "*") ∨
        (¬ kv.1 ∈ extraKeys ∧ e.1 = kv.1)) := by
  unfold groupForCategory at he
  rcases List.mem_map.mp he with ⟨kv, hkv, hekv⟩
  have hkv2 := List.mem_filter.mp hkv
  have hmem : kv ∈ params := by
    have := hkv2.1
    unfold sortedItems at this
    exact (List.mem_insertionSort byKeyLe).mp this
  have hcat : kv.2.cat = c := by simpa using hkv2.2
  refine ⟨kv, hmem, hcat, ?_, ?_⟩
  · rw [← hekv]
  · by_cases hx : kv.1 ∈ extraKeys
    · exact Or.inl ⟨hx, by rw [← hekv]; simp [hx]⟩
    · exact Or.inr ⟨hx, by rw [← hekv]; simp [hx]⟩

/-- C6: hidden categories are skipped during grouping: no group is keyed
by a hidden category title, and every parameter appearing in any group
comes from an entry of the merged schema whose own category is not
hidden. Every renderer consumes only these groups. -/
theorem spec_C6 (cats : List ParamCategory) (params : Schema)
    (extraKeys : List String) :
    ∀ g ∈ grouped_params cats params extraKeys,
      (∃ c ∈ cats, isHiddenCat c = false ∧ g.1 = c.title) ∧
      ∀ e ∈ g.2, ∃ kv ∈ params, asciiUpper kv.2.cat.title ≠ HIDDEN ∧
        (e.1 = kv.1 ∨ e.1 = kv.1 ++ "*") ∧ e.2 = (kv.2.descr, kv.2.dflt) := by
  intro g hg
  rcases grouped_fold_mem params extraKeys cats [] g hg with h | ⟨c, hc, hhid, hgc⟩
  · simp at h
  constructor
  · exact ⟨c, hc, hhid, by rw [hgc]⟩
  · intro e he
    rw [hgc] at he
    rcases mem_groupForCategory params extraKeys c e he with
      ⟨kv, hkv, hcat, he2, hstar⟩
    have hnothid : asciiUpper kv.2.cat.title ≠ HIDDEN := by
      rw [hcat]
      intro hu
      unfold isHiddenCat at hhid
      rw [hu] at hhid
      simp at hhid
    rcases hstar with ⟨_, he1⟩ | ⟨_, he1⟩
    · exact ⟨kv, hkv, hnothid, Or.inr he1, he2⟩
    · exact ⟨kv, hkv, hnothid, Or.inl he1, he2⟩

/-- C5: with easyblock-specific extra parameters declared, every rendered
parameter name of the catalog stems from a merged schema entry; names of
extra parameters carry the star marker exactly once (appended to a
star-free base name), and names of all other parameters carry no star at
all. -/
theorem spec_C5 (cats : List ParamCategory) (default_config : Schema)
    (app : EasyblockClass)
    (hnostar : ∀ kv ∈ dictUpdate default_config app.extra_options,
      ¬ '*' ∈ kv.1.data) :
    ∀ g ∈ (avail_easyconfig_params_core cats default_config (some app)).2,
      ∀ e ∈ g.2,
        ∃ kv ∈ dictUpdate default_config app.extra_options,
          ((kv.1 ∈ app.extra_options.map (fun kv => kv.1) ∧
              e.1 = kv.1 ++ "*" ∧ e.1.data.count '*' = 1) ∨
            (¬ kv.1 ∈ app.extra_options.map (fun kv => kv.1) ∧
              e.1 = kv.1 ∧ e.1.data.count '*' = 0)) := by
  intro g hg e he
  simp only [avail_easyconfig_params_core] at hg
  rcases grouped_fold_mem _ _ cats [] g hg with h | ⟨c, _, _, hgc⟩
  · simp at h
  rw [hgc] at he
  rcases mem_groupForCategory _ _ c e he with ⟨kv, hkv, _, _, hstar⟩
  refine ⟨kv, hkv, ?_⟩
  have hzero : kv.1.data.count '*' = 0 :=
    List.count_eq_zero.mpr (hnostar kv hkv)
  rcases hstar with ⟨hx, he1⟩ | ⟨hx, he1⟩
  · refine Or.inl ⟨hx, he1, ?_⟩
    rw [he1, String.data_append, List.count_append, hzero]
    rfl
  · exact Or.inr ⟨hx, he1, by rw [he1]; exact hzero⟩

/-- Witness for C5 at a concrete schema and easyblock. -/
theorem spec_C5_witness :
    (∀ kv ∈ dictUpdate demoConfig demoApp.extra_options, ¬ '*' ∈ kv.1.data) ∧
      ∀ g ∈ (avail_easyconfig_params_core demoCats demoConfig (some demoApp)).2,
        ∀ e ∈ g.2,
          ∃ kv ∈ dictUpdate demoConfig demoApp.extra_options,
            ((kv.1 ∈ demoApp.extra_options.map (fun kv => kv.1) ∧
                e.1 = kv.1 ++ "*" ∧ e.1.data.count '*' = 1) ∨
              (¬ kv.1 ∈ demoApp.extra_options.map (fun kv => kv.1) ∧
                e.1 = kv.1 ∧ e.1.data.count '*' = 0)) :=
  ⟨by decide, spec_C5 demoCats demoConfig demoApp (by decide)⟩

theorem dictUpdate_nil (base : Schema) : dictUpdate base [] = base := by
  unfold dictUpdate
  simp

/-- C7: when the easyblock type id resolves to no known easyblock the
catalog builder still succeeds and degrades to the base schema: the title
carries no "specific to" qualifier, the groups are those of the base
schema with no extra keys, and every rendered parameter is an unmarked
entry of the base schema itself. -/
theorem spec_C7 (cats : List ParamCategory) (default_config : Schema) :
    (avail_easyconfig_params_core cats default_config none).1 =
        "Available easyconfig parameters"
    ∧ (avail_easyconfig_params_core cats default_config none).2 =
        grouped_params cats default_config []
    ∧ ∀ g ∈ (avail_easyconfig_params_core cats default_config none).2,
        ∀ e ∈ g.2, ∃ info : ParamInfo, (e.1, info) ∈ default_config ∧
          e.2 = (info.descr, info.dflt) := by
  refine ⟨rfl, ?_, ?_⟩
  · simp only [avail_easyconfig_params_core, dictUpdate_nil, List.map_nil]
  · intro g hg e he
    simp only [avail_easyconfig_params_core, dictUpdate_nil, List.map_nil] at hg
    rcases grouped_fold_mem _ _ cats [] g hg with h | ⟨c, _, _, hgc⟩
    · simp at h
    rw [hgc] at he
    rcases mem_groupForCategory _ _ c e he with ⟨kv, hkv, _, he2, hstar⟩
    rcases hstar with ⟨hx, _⟩ | ⟨_, he1⟩
    · simp at hx
    · refine ⟨kv.2, ?_, he2⟩
      rw [he1, Prod.mk.eta]
      exact hkv

/-- C9: the base schema object is left unchanged by the catalog builder:
after the call the object at the base address holds exactly its old
value, while the merged copy lives at the fresh address. -/
theorem spec_C9 (h : SchemaHeap) (baseAddr : Nat) (extra : Schema)
    (hvalid : baseAddr < h.objs.length) :
    hread (avail_params_st h baseAddr extra).1 baseAddr = hread h baseAddr
    ∧ hread (avail_params_st h baseAddr extra).1
        (avail_params_st h baseAddr extra).2 =
      dictUpdate (hread h baseAddr) extra := by
  constructor
  · simp only [avail_params_st, halloc, hwrite, hread]
    rw [List.getD_eq_getElem?_getD,
      List.getElem?_set_ne (Nat.ne_of_gt hvalid),
      List.getElem?_append_left hvalid,
      List.getD_eq_getElem?_getD]
  · simp only [avail_params_st, halloc, hwrite]
    unfold hread
    rw [List.getD_eq_getElem?_getD, List.getElem?_set_self
      (by simp only [List.length_append, List.length_cons, List.length_nil]; omega)]
    simp only [Option.getD_some]
    have hinner : (h.objs ++ [h.objs.getD baseAddr []]).getD h.objs.length [] =
        h.objs.getD baseAddr [] := by
      rw [List.getD_eq_getElem?_getD, List.getElem?_concat_length]
      rfl
    rw [hinner]

/-- Witness for C9 at a one-object heap holding the demo base schema. -/
theorem spec_C9_witness :
    (0 < (SchemaHeap.mk [demoConfig]).objs.length) ∧
      (hread (avail_params_st ⟨[demoConfig]⟩ 0 demoApp.extra_options).1 0 =
          hread ⟨[demoConfig]⟩ 0
        ∧ hread (avail_params_st ⟨[demoConfig]⟩ 0 demoApp.extra_options).1
            (avail_params_st ⟨[demoConfig]⟩ 0 demoApp.extra_options).2 =
          dictUpdate (hread ⟨[demoConfig]⟩ 0) demoApp.extra_options) :=
  ⟨by decide, spec_C9 ⟨[demoConfig]⟩ 0 demoApp.extra_options (by decide)⟩

theorem moduleContributes_false_iff (pkg : String) (mod : PyModule) :
    moduleContributes pkg mod = false ↔
      (mod.members.filter (memberCounts pkg)).isEmpty = true := by
  unfold moduleContributes
  rw [List.isEmpty_iff, List.filter_eq_nil_iff]
  constructor
  · intro h a ha hc
    rw [Bool.eq_false_iff] at h
    exact h (List.any_eq_true.mpr ⟨a, ha, hc⟩)
  · intro h
    rw [Bool.eq_false_iff]
    intro hc
    rcases List.any_eq_true.mp hc with ⟨a, ha, hca⟩
    exact h a ha hca

/-- C8: whenever some scanned module contributes zero discoverable
easyblock classes, the hierarchy and overview support function fails with
the fatal error naming an offending module, instead of returning a class
set. -/
theorem spec_C8 (pkg : String) (modules : List PyModule)
    (h : ∃ mod ∈ modules, moduleContributes pkg mod = false) :
    ∃ badMod ∈ modules, moduleContributes pkg badMod = false ∧
      get_easyblock_classes pkg modules =
        Except.error ("No easyblocks found in module: %s", badMod.modName) := by
  induction modules with
  | nil => simp at h
  | cons m mods ih =>
    by_cases hm : (m.members.filter (memberCounts pkg)).isEmpty
    · refine ⟨m, List.mem_cons_self m mods,
        (moduleContributes_false_iff pkg m).mpr hm, ?_⟩
      unfold get_easyblock_classes
      rw [if_pos hm]
    · rcases h with ⟨mod, hmem, hcon⟩
      have hmods : mod ∈ mods := by
        rcases List.mem_cons.mp hmem with h1 | h1
        · exact absurd ((moduleContributes_false_iff pkg mod).mp hcon)
            (by rw [h1]; simpa using hm)
        · exact h1
      rcases ih ⟨mod, hmods, hcon⟩ with ⟨bad, hbadmem, hbadcon, heq⟩
      refine ⟨bad, List.mem_cons_of_mem _ hbadmem, hbadcon, ?_⟩
      unfold get_easyblock_classes
      rw [if_neg hm, heq]

/-- Witness for C8 at a package scan hitting an empty module. -/
theorem spec_C8_witness :
    (∃ mod ∈ [demoBadModule],
      moduleContributes "easybuild.easyblocks" mod = false) ∧
      ∃ badMod ∈ [demoBadModule],
        moduleContributes "easybuild.easyblocks" badMod = false ∧
          get_easyblock_classes "easybuild.easyblocks" [demoBadModule] =
            Except.error ("No easyblocks found in module: %s", badMod.modName) :=
  ⟨by decide, spec_C8 "easybuild.easyblocks" [demoBadModule] (by decide)⟩

/-- C3 evaluation at the failing input: the easyblock defines only
configure_step, yet with the hook list [configure_step, build_step] both
renderers also emit a customized-step bullet for build_step, reusing the
configure_step docstring, because the loop variable f is never reset for
hook names the class does not define. -/
theorem spec_C3 :
    List.lookup "build_step" demoClassDict = none ∧
      stepBulletsMd demoClassDict ["configure_step", "build_step"] =
        ["* ``configure_step`` - Configure the build.", "",
         "* ``build_step`` - Configure the build.", ""] ∧
      stepBulletsRst demoClassDict ["configure_step", "build_step"] =
        ["* ``configure_step`` - Configure the build.",
         "* ``build_step`` - Configure the build."] :=
  ⟨rfl, rfl, rfl⟩

/-- Witness for C6 at the concrete schema: the custom group of the demo
catalog is in the grouping, and every parameter in it stems from a
non-hidden category. -/
theorem spec_C6_witness :
    (("custom", [("configopts*", ("Extra options for configure", ""))]) ∈
        grouped_params demoCats (dictUpdate demoConfig demoApp.extra_options)
          ["configopts"]) ∧
      ((∃ c ∈ demoCats, isHiddenCat c = false ∧
          (("custom", [("configopts*", ("Extra options for configure", ""))]) :
            String × List (String × (String × String))).1 = c.title) ∧
        ∀ e ∈ (("custom", [("configopts*", ("Extra options for configure", ""))]) :
            String × List (String × (String × String))).2,
          ∃ kv ∈ dictUpdate demoConfig demoApp.extra_options,
            asciiUpper kv.2.cat.title ≠ HIDDEN ∧
              (e.1 = kv.1 ∨ e.1 = kv.1 ++ "*") ∧ e.2 = (kv.2.descr, kv.2.dflt)) :=
  have hmem : ("custom", [("configopts*", ("Extra options for configure", ""))]) ∈
      grouped_params demoCats (dictUpdate demoConfig demoApp.extra_options)
        ["configopts"] := by
    rw [show grouped_params demoCats (dictUpdate demoConfig demoApp.extra_options)
        ["configopts"] =
      [("mandatory", [("name", ("Name of software", "")),
        ("version", ("Version of software", ""))]),
       ("custom", [("configopts*", ("Extra options for configure", ""))])] from by rfl]
    exact List.Mem.tail _ (List.Mem.head _)
  ⟨hmem, spec_C6 demoCats (dictUpdate demoConfig demoApp.extra_options)
    ["configopts"]
    ("custom", [("configopts*", ("Extra options for configure", ""))]) hmem⟩

/-- Witness for C10 at the concrete schema: the custom group of the demo
catalog is in the rendered catalog and is nonempty. -/
theorem spec_C10_witness :
    (("custom", [("configopts*", ("Extra options for configure", ""))]) ∈
        (avail_easyconfig_params_core demoCats demoConfig (some demoApp)).2) ∧
      (("custom", [("configopts*", ("Extra options for configure", ""))]) :
        String × List (String × (String × String))).2 ≠ [] :=
  have hmem : ("custom", [("configopts*", ("Extra options for configure", ""))]) ∈
      (avail_easyconfig_params_core demoCats demoConfig (some demoApp)).2 := by
    rw [show (avail_easyconfig_params_core demoCats demoConfig (some demoApp)).2 =
      [("mandatory", [("name", ("Name of software", "")),
        ("version", ("Version of software", ""))]),
       ("custom", [("configopts*", ("Extra options for configure", ""))])] from by rfl]
    exact List.Mem.tail _ (List.Mem.head _)
  ⟨hmem, spec_C10 demoCats demoConfig (some demoApp)
    ("custom", [("configopts*", ("Extra options for configure", ""))]) hmem⟩
